import Mathlib

/-!
Shallow embedding of the mnemonics competitive-match services:
the match state machine (src/services/matchStateMachine.ts),
the WMC scoring engine (src/services/scoring.ts),
the ELO rating system (src/services/elo.ts), and
the matchmaking search-radius computation (matchmaking service).

JavaScript numbers are modelled as `Rat`/`Real` where genuine division
occurs and as `Nat`/`Int` where the code only ever produces integers.
`Math.floor` becomes `Int.floor`, `Math.ceil` on naturals becomes
`(n + 1) / 2` for halving, and `Math.round` becomes Mathlib's `round`
(both round half upward).
-/

/-! ### Match state machine (src/services/matchStateMachine.ts) -/

/-- The enum `MatchState`. -/
inductive MatchState
  | CREATED
  | WAITING_FOR_PLAYERS
  | COUNTDOWN
  | MEMORIZATION
  | RECALL
  | COMPLETED
  | CANCELLED
  | PAUSED
deriving DecidableEq, Repr

open MatchState in
/-- The `VALID_TRANSITIONS` table: for each state, the list of states it may
transition to. -/
def VALID_TRANSITIONS : MatchState → List MatchState
  | CREATED => [WAITING_FOR_PLAYERS, CANCELLED]
  | WAITING_FOR_PLAYERS => [COUNTDOWN, CANCELLED]
  | COUNTDOWN => [MEMORIZATION, PAUSED, CANCELLED]
  | MEMORIZATION => [RECALL, PAUSED, CANCELLED]
  | RECALL => [COMPLETED, PAUSED, CANCELLED]
  | PAUSED => [COUNTDOWN, MEMORIZATION, RECALL, CANCELLED]
  | COMPLETED => []
  | CANCELLED => []

/-- The `action` field of a disconnection policy. -/
inductive DisconnectionAction
  | PAUSE
  | FORFEIT
  | WAIT
  | NONE
deriving DecidableEq, Repr

/-- The record `DisconnectionPolicy`. -/
structure DisconnectionPolicy where
  gracePeriodMs : Nat
  action : DisconnectionAction
  allowReconnect : Bool
deriving DecidableEq, Repr

open MatchState in
/-- The `DISCONNECTION_POLICIES` table. -/
def DISCONNECTION_POLICIES : MatchState → DisconnectionPolicy
  | CREATED => ⟨60000, DisconnectionAction.WAIT, true⟩
  | WAITING_FOR_PLAYERS => ⟨60000, DisconnectionAction.WAIT, true⟩
  | COUNTDOWN => ⟨10000, DisconnectionAction.PAUSE, true⟩
  | MEMORIZATION => ⟨15000, DisconnectionAction.PAUSE, true⟩
  | RECALL => ⟨10000, DisconnectionAction.FORFEIT, true⟩
  | PAUSED => ⟨60000, DisconnectionAction.WAIT, true⟩
  | COMPLETED => ⟨0, DisconnectionAction.NONE, false⟩
  | CANCELLED => ⟨0, DisconnectionAction.NONE, false⟩

/-- The mutable part of a `MatchStateMachine` instance: the current state and
the state history (timestamps are real time and are not modelled; the history
keeps the sequence of states entered). -/
structure MatchStateMachine where
  state : MatchState
  stateHistory : List MatchState
deriving DecidableEq, Repr

/-- Constructor `new MatchStateMachine(initialState)`. -/
def MatchStateMachine.mk' (initialState : MatchState) : MatchStateMachine :=
  ⟨initialState, [initialState]⟩

/-- Method `canTransition(newState)`: the target must be in the current state's entry
of `VALID_TRANSITIONS`. -/
def MatchStateMachine.canTransition (m : MatchStateMachine)
    (newState : MatchState) : Bool :=
  decide (newState ∈ VALID_TRANSITIONS m.state)

/-- Method `transition(newState)`: returns the boolean result together with the
machine after the call (unchanged when the transition is rejected). -/
def MatchStateMachine.transition (m : MatchStateMachine)
    (newState : MatchState) : Bool × MatchStateMachine :=
  if m.canTransition newState then
    (true, ⟨newState, m.stateHistory ++ [newState]⟩)
  else
    (false, m)

/-- Method `getDisconnectionPolicy(state?)`: looks up the given state, defaulting to
the machine's current state. -/
def MatchStateMachine.getDisconnectionPolicy (m : MatchStateMachine)
    (state : Option MatchState) : DisconnectionPolicy :=
  DISCONNECTION_POLICIES (state.getD m.state)

/-- Method `isTerminalState()`. -/
def MatchStateMachine.isTerminalState (m : MatchStateMachine) : Bool :=
  m.state = MatchState.COMPLETED ∨ m.state = MatchState.CANCELLED

/-! ### Scoring engine (src/services/scoring.ts) -/

/-- The record `RowScore`. -/
structure RowScore where
  rowIndex : Nat
  errors : Nat
  score : Nat
  isComplete : Bool
deriving DecidableEq, Repr

/-- The record `ScoringResult`. -/
structure ScoringResult where
  totalScore : Nat
  correctCount : Nat
  wrongCount : Nat
  rowScores : List RowScore
deriving DecidableEq, Repr

/-- Function `countErrors(recalled, actual)`: compares cell by cell over the shorter of
the two lengths; a cell is an error when the recalled string differs from the
decimal rendering of the actual digit. -/
def countErrors : List String → List Nat → Nat
  | r :: rs, a :: rest => (if r = toString a then 0 else 1) + countErrors rs rest
  | _, _ => 0

/-- Function `scoreRow(recalled, actual, digitsPerRow)`: 0 errors gives the attempted
length, exactly 1 error gives half the length (floor when the row is complete,
ceil otherwise), 2+ errors give 0. The caller overwrites `rowIndex`. -/
def scoreRow (recalled : List String) (actual : List Nat)
    (digitsPerRow : Nat) : RowScore :=
  let errors := countErrors recalled actual
  let rowLength := recalled.length
  let isComplete := decide (rowLength = digitsPerRow)
  let score :=
    if errors = 0 then rowLength
    else if errors = 1 then
      if isComplete then rowLength / 2 else (rowLength + 1) / 2
    else 0
  ⟨0, errors, score, isComplete⟩

/-- The attempted length of a recalled row: `lastFilledIndex + 1`, where
`lastFilledIndex` is the greatest index holding a non-empty string (the scan
from the end of the row); 0 when the whole row is empty. -/
def attemptedLength (row : List String) : Nat :=
  (row.reverse.dropWhile (fun s => s = "")).length

/-- The per-digit accuracy tally of `scoreNumberEvent` / `scoreNumberEventUSA`:
a cell whose recalled string equals the rendering of the actual digit
increments `correctCount`. Cells beyond the end of the actual row compare
against no digit and are never correct. -/
def countCorrect : List String → List Nat → Nat
  | r :: rs, a :: rest => (if r = toString a then 1 else 0) + countCorrect rs rest
  | _, _ => 0

/-- The per-digit accuracy tally of `scoreNumberEvent` / `scoreNumberEventUSA`:
a non-empty recalled cell that does not match the actual digit increments
`wrongCount`; an empty cell increments nothing. A non-empty cell beyond the
end of the actual row compares against `undefined` and counts as wrong. -/
def countWrong : List String → List Nat → Nat
  | r :: rs, a :: rest =>
      (if r ≠ toString a ∧ r ≠ "" then 1 else 0) + countWrong rs rest
  | r :: rs, [] => (if r ≠ "" then 1 else 0) + countWrong rs []
  | [], _ => 0

/-- One row of `scoreNumberEvent`: `none` when the recalled row is entirely
empty (the row is skipped); otherwise the `RowScore` (with `rowIndex` set) and
the row's contributions to `correctCount` and `wrongCount`, all computed on
the prefixes up to the last filled index. -/
def scoreRowEntry (digitsPerRow rowIndex : Nat) (rowRecalled : List String)
    (rowActual : List Nat) : Option (RowScore × Nat × Nat) :=
  let n := attemptedLength rowRecalled
  if n = 0 then none
  else
    let relR := rowRecalled.take n
    let relA := rowActual.take n
    let rs := scoreRow relR relA digitsPerRow
    some (⟨rowIndex, rs.errors, rs.score, rs.isComplete⟩,
      countCorrect relR relA, countWrong relR relA)

/-- The USA-variant row score, inlined in `scoreNumberEventUSA`: any error in
the attempted range gives 0, otherwise the attempted length. -/
def usaRowScore (recalled : List String) (actual : List Nat) : Nat :=
  if countErrors recalled actual = 0 then recalled.length else 0

/-- One row of `scoreNumberEventUSA`: as `scoreRowEntry` but with the strict
all-or-nothing row score. -/
def scoreRowEntryUSA (digitsPerRow rowIndex : Nat) (rowRecalled : List String)
    (rowActual : List Nat) : Option (RowScore × Nat × Nat) :=
  let n := attemptedLength rowRecalled
  if n = 0 then none
  else
    let relR := rowRecalled.take n
    let relA := rowActual.take n
    some (⟨rowIndex, countErrors relR relA, usaRowScore relR relA,
        decide (relR.length = digitsPerRow)⟩,
      countCorrect relR relA, countWrong relR relA)

/-- Accumulate one optional row entry onto a `ScoringResult`. -/
def accumRow (entry : Option (RowScore × Nat × Nat)) (acc : ScoringResult) :
    ScoringResult :=
  match entry with
  | none => acc
  | some (rs, c, w) =>
      ⟨rs.score + acc.totalScore, c + acc.correctCount, w + acc.wrongCount,
        rs :: acc.rowScores⟩

/-- The inner row loop of `scoreNumberEvent`: iterates over the rows of the
actual page, pairing each with the recalled page's row (missing recalled rows
default to the empty row). `baseIdx` is `p * pageActual.length` and `r` the
current row index within the page. -/
def scoreRowsStd (digitsPerRow baseIdx : Nat) :
    Nat → List (List String) → List (List Nat) → ScoringResult
  | _, _, [] => ⟨0, 0, 0, []⟩
  | r, recRows, a :: arest =>
      accumRow (scoreRowEntry digitsPerRow (baseIdx + r) (recRows.headD []) a)
        (scoreRowsStd digitsPerRow baseIdx (r + 1) recRows.tail arest)

/-- The outer page loop of `scoreNumberEvent`; `p` is the current page index
and missing recalled pages default to the empty page. -/
def scorePagesStd (digitsPerRow : Nat) :
    Nat → List (List (List String)) → List (List (List Nat)) → ScoringResult
  | _, _, [] => ⟨0, 0, 0, []⟩
  | p, recPages, a :: arest =>
      let page := scoreRowsStd digitsPerRow (p * a.length) 0 (recPages.headD []) a
      let rest := scorePagesStd digitsPerRow (p + 1) recPages.tail arest
      ⟨page.totalScore + rest.totalScore, page.correctCount + rest.correctCount,
        page.wrongCount + rest.wrongCount, page.rowScores ++ rest.rowScores⟩

/-- Function `scoreNumberEvent(recalledGrid, actualGrid, digitsPerRow)`. -/
def scoreNumberEvent (recalledGrid : List (List (List String)))
    (actualGrid : List (List (List Nat))) (digitsPerRow : Nat) : ScoringResult :=
  scorePagesStd digitsPerRow 0 recalledGrid actualGrid

/-- The inner row loop of `scoreNumberEventUSA`. -/
def scoreRowsUSA (digitsPerRow baseIdx : Nat) :
    Nat → List (List String) → List (List Nat) → ScoringResult
  | _, _, [] => ⟨0, 0, 0, []⟩
  | r, recRows, a :: arest =>
      accumRow (scoreRowEntryUSA digitsPerRow (baseIdx + r) (recRows.headD []) a)
        (scoreRowsUSA digitsPerRow baseIdx (r + 1) recRows.tail arest)

/-- The outer page loop of `scoreNumberEventUSA`. -/
def scorePagesUSA (digitsPerRow : Nat) :
    Nat → List (List (List String)) → List (List (List Nat)) → ScoringResult
  | _, _, [] => ⟨0, 0, 0, []⟩
  | p, recPages, a :: arest =>
      let page := scoreRowsUSA digitsPerRow (p * a.length) 0 (recPages.headD []) a
      let rest := scorePagesUSA digitsPerRow (p + 1) recPages.tail arest
      ⟨page.totalScore + rest.totalScore, page.correctCount + rest.correctCount,
        page.wrongCount + rest.wrongCount, page.rowScores ++ rest.rowScores⟩

/-- Function `scoreNumberEventUSA(recalledGrid, actualGrid, digitsPerRow)`. -/
def scoreNumberEventUSA (recalledGrid : List (List (List String)))
    (actualGrid : List (List (List Nat))) (digitsPerRow : Nat) : ScoringResult :=
  scorePagesUSA digitsPerRow 0 recalledGrid actualGrid

/-- Function `calculateMillenniumScore(rawScore, standard)`: the championship
normalization `round(rawScore / standard * 1000)`. -/
def calculateMillenniumScore (rawScore standard : ℚ) : ℤ :=
  round (rawScore / standard * 1000)

/-! ### ELO rating system (src/services/elo.ts)

Ratings are modelled over the real numbers; `Math.pow` becomes real
exponentiation and `Math.round` becomes `round`. -/

/-- The record `RatingUpdate`. The `ratingChange` is the integer produced by
`Math.round`, carried as a real. -/
structure RatingUpdate where
  newRating : ℝ
  ratingChange : ℝ
  expectedScore : ℝ
  kFactor : ℝ

/-- Function `calculateExpectedScore(ratingA, ratingB)`: the logistic win
probability `1 / (1 + 10^((B − A)/400))`. -/
noncomputable def calculateExpectedScore (ratingA ratingB : ℝ) : ℝ :=
  1 / (1 + (10 : ℝ) ^ ((ratingB - ratingA) / 400))

/-- Function `calculateNewRating(currentRating, opponentRating, actualScore, kFactor)`:
the rounded rating change is applied and the result floored at 100. -/
noncomputable def calculateNewRating (currentRating opponentRating actualScore
    kFactor : ℝ) : RatingUpdate :=
  let expectedScore := calculateExpectedScore currentRating opponentRating
  let ratingChange : ℤ := round (kFactor * (actualScore - expectedScore))
  let newRating := currentRating + (ratingChange : ℝ)
  ⟨max 100 newRating, (ratingChange : ℝ), expectedScore, kFactor⟩

/-! ### Matchmaking search radius (matchmaking service) -/

/-- The record `MatchmakingConfig`. -/
structure MatchmakingConfig where
  baseRange : ℚ
  expansionRate : ℚ
  maxRange : ℚ
  timeInterval : ℚ
deriving DecidableEq, Repr

/-- The table `DEFAULT_CONFIG`: base 100, +10 rating points per 5-second interval,
capped at 500. -/
def DEFAULT_CONFIG : MatchmakingConfig := ⟨100, 10, 500, 5⟩

/-- Method `calculateSearchRange(waitTimeSeconds)`: the number of whole elapsed
intervals widens the base range by `expansionRate` each, capped at
`maxRange`. -/
def calculateSearchRange (config : MatchmakingConfig)
    (waitTimeSeconds : ℚ) : ℚ :=
  let intervals : ℤ := ⌊waitTimeSeconds / config.timeInterval⌋
  let expandedRange := config.baseRange + (intervals : ℚ) * config.expansionRate
  min expandedRange config.maxRange

/-! ### Theorems -/

open MatchState in
/-- Claim C1: `transition(T)` returns true iff `T` is in the current state's
allowed-destination set of the transition table; when it returns false the
machine is unchanged; the table is exactly the one of the spec, so in
particular every transition out of COMPLETED or CANCELLED is rejected. -/
theorem C1_transition_table (m : MatchStateMachine) (t : MatchState) :
    ((m.transition t).1 = true ↔ t ∈ VALID_TRANSITIONS m.state) ∧
    ((m.transition t).1 = false → (m.transition t).2 = m) ∧
    ((m.state = COMPLETED ∨ m.state = CANCELLED) → (m.transition t).1 = false) ∧
    VALID_TRANSITIONS CREATED = [WAITING_FOR_PLAYERS, CANCELLED] ∧
    VALID_TRANSITIONS WAITING_FOR_PLAYERS = [COUNTDOWN, CANCELLED] ∧
    VALID_TRANSITIONS COUNTDOWN = [MEMORIZATION, PAUSED, CANCELLED] ∧
    VALID_TRANSITIONS MEMORIZATION = [RECALL, PAUSED, CANCELLED] ∧
    VALID_TRANSITIONS RECALL = [COMPLETED, PAUSED, CANCELLED] ∧
    VALID_TRANSITIONS PAUSED = [COUNTDOWN, MEMORIZATION, RECALL, CANCELLED] ∧
    VALID_TRANSITIONS COMPLETED = [] ∧
    VALID_TRANSITIONS CANCELLED = [] := by
  refine ⟨?_, ?_, ?_, rfl, rfl, rfl, rfl, rfl, rfl, rfl, rfl⟩
  · by_cases h : t ∈ VALID_TRANSITIONS m.state <;>
      simp [MatchStateMachine.transition, MatchStateMachine.canTransition, h]
  · by_cases h : t ∈ VALID_TRANSITIONS m.state <;>
      simp [MatchStateMachine.transition, MatchStateMachine.canTransition, h]
  · rintro (h | h) <;>
      simp [MatchStateMachine.transition, MatchStateMachine.canTransition, h,
        VALID_TRANSITIONS]

/-- Witness for C1: from the terminal state COMPLETED, the transition to
RECALL is rejected and the machine is unchanged. -/
theorem C1_transition_table_witness :
    ((MatchStateMachine.mk' MatchState.COMPLETED).transition MatchState.RECALL).1
      = false ∧
    ((MatchStateMachine.mk' MatchState.COMPLETED).transition MatchState.RECALL).2
      = MatchStateMachine.mk' MatchState.COMPLETED := by
  have h := C1_transition_table (MatchStateMachine.mk' MatchState.COMPLETED)
    MatchState.RECALL
  have h1 := h.2.2.1 (Or.inl rfl)
  exact ⟨h1, h.2.1 h1⟩

/-- Claim C8: the disconnection policy for RECALL is 10s grace, FORFEIT, reconnect
allowed; for the terminal states COMPLETED and CANCELLED it is 0ms, NONE, no
reconnect. -/
theorem C8_disconnection_policy (m : MatchStateMachine) :
    m.getDisconnectionPolicy (some MatchState.RECALL) =
      ⟨10000, DisconnectionAction.FORFEIT, true⟩ ∧
    m.getDisconnectionPolicy (some MatchState.COMPLETED) =
      ⟨0, DisconnectionAction.NONE, false⟩ ∧
    m.getDisconnectionPolicy (some MatchState.CANCELLED) =
      ⟨0, DisconnectionAction.NONE, false⟩ :=
  ⟨rfl, rfl, rfl⟩

/-- Claim C2: `scoreRow` awards the attempted length with 0 errors; with exactly 1
error, half the length rounded down when the row is complete and up
otherwise; 0 with 2 or more errors. Concretely: a fully correct 40-digit row
scores 40, one wrong digit in a full 40-digit row scores 20, one wrong digit
in a 10-cell attempted row scores 5, two wrong digits score 0. -/
theorem C2_scoreRow (recalled : List String) (actual : List Nat)
    (digitsPerRow : Nat) :
    (scoreRow recalled actual digitsPerRow).errors = countErrors recalled actual ∧
    (countErrors recalled actual = 0 →
      (scoreRow recalled actual digitsPerRow).score = recalled.length) ∧
    (countErrors recalled actual = 1 →
      (scoreRow recalled actual digitsPerRow).score =
        if recalled.length = digitsPerRow then recalled.length / 2
        else (recalled.length + 1) / 2) ∧
    (2 ≤ countErrors recalled actual →
      (scoreRow recalled actual digitsPerRow).score = 0) ∧
    (scoreRow (List.replicate 40 "7") (List.replicate 40 7) 40).score = 40 ∧
    (scoreRow ("9" :: List.replicate 39 "7") (List.replicate 40 7) 40).score = 20 ∧
    (scoreRow ("9" :: List.replicate 9 "7") (List.replicate 10 7) 40).score = 5 ∧
    (scoreRow ["9", "9", "7"] [7, 7, 7] 40).score = 0 := by
  refine ⟨rfl, ?_, ?_, ?_, by decide, by decide, by decide, by decide⟩
  · intro h
    simp [scoreRow, h]
  · intro h
    by_cases hc : recalled.length = digitsPerRow <;> simp [scoreRow, h, hc]
  · intro h
    have h0 : ¬ countErrors recalled actual = 0 := by omega
    have h1 : ¬ countErrors recalled actual = 1 := by omega
    simp [scoreRow, h0, h1]

/-- Witness for C2: a 2-cell attempted row with one wrong digit (incomplete,
since 2 ≠ 40) scores `ceil(2 / 2) = 1`. -/
theorem C2_scoreRow_witness :
    countErrors ["9", "7"] [7, 7] = 1 ∧ (scoreRow ["9", "7"] [7, 7] 40).score = 1 := by
  have h : countErrors ["9", "7"] [7, 7] = 1 := by decide
  have h2 := (C2_scoreRow ["9", "7"] [7, 7] 40).2.2.1 h
  refine ⟨h, ?_⟩
  simpa using h2

/-- Claim C6: per row, the USA variant gives 0 whenever there is at least one
error, agrees with the standard variant (attempted length) on error-free
rows, and never exceeds the standard variant's row score. -/
theorem C6_usa_strict (recalled : List String) (actual : List Nat) (d : Nat) :
    (1 ≤ countErrors recalled actual → usaRowScore recalled actual = 0) ∧
    (countErrors recalled actual = 0 →
      usaRowScore recalled actual = recalled.length ∧
      (scoreRow recalled actual d).score = recalled.length) ∧
    usaRowScore recalled actual ≤ (scoreRow recalled actual d).score := by
  by_cases h : countErrors recalled actual = 0
  · refine ⟨fun hle => absurd (h ▸ hle) (by norm_num), fun _ => ⟨?_, ?_⟩, ?_⟩
    · simp [usaRowScore, h]
    · simp [scoreRow, h]
    · simp [usaRowScore, scoreRow, h]
  · refine ⟨fun _ => by simp [usaRowScore, h], fun h0 => absurd h0 h, ?_⟩
    simp [usaRowScore, h]

/-- Witness for C6: a 1-cell row recalled wrongly gets 0 under the USA
variant while the standard variant awards `ceil(1 / 2) = 1`. -/
theorem C6_usa_strict_witness :
    usaRowScore ["9"] [7] = 0 ∧ (scoreRow ["9"] [7] 40).score = 1 ∧
    usaRowScore ["9"] [7] ≤ (scoreRow ["9"] [7] 40).score := by
  have h := C6_usa_strict ["9"] [7] 40
  exact ⟨h.1 (by decide), by decide, h.2.2⟩

/-- Each attempted cell increments at most one of the two accuracy tallies:
an empty mismatching cell increments neither. -/
theorem countCorrect_add_countWrong_le (recalled : List String)
    (actual : List Nat) :
    countCorrect recalled actual + countWrong recalled actual ≤
      recalled.length := by
  induction recalled generalizing actual with
  | nil => cases actual <;> simp [countCorrect, countWrong]
  | cons x xs ih =>
    cases actual with
    | nil =>
      have h := ih ([] : List Nat)
      simp only [countCorrect, countWrong, List.length_cons]
      split <;> omega
    | cons y ys =>
      have h := ih ys
      simp only [countCorrect, countWrong, List.length_cons]
      rcases eq_or_ne x (toString y) with hx | hx
      · rw [if_pos hx, if_neg (fun hc => hc.1 hx)]
        omega
      · rw [if_neg hx]
        by_cases he : x = ""
        · rw [if_neg (fun hc => hc.2 he)]
          omega
        · rw [if_pos (And.intro hx he)]
          omega

/-- Claim C10: the accuracy tallies of `scoreNumberEvent`/`scoreNumberEventUSA`
never exceed the attempted length, and on the concrete grid
`[[["1", "", "3"]]]` against `[[[1, 2, 3]]]` the empty middle cell counts as
the row's single error (the standard row credit is `ceil(3 / 2) = 2 < 3`, the
USA row credit 0) while `correctCount + wrongCount = 2 + 0` is strictly less
than the 3 attempted cells. -/
theorem C10_empty_cell_tallies (recalled : List String) (actual : List Nat) :
    countCorrect recalled actual + countWrong recalled actual ≤
      recalled.length ∧
    scoreNumberEvent [[["1", "", "3"]]] [[[1, 2, 3]]] 40 =
      ⟨2, 2, 0, [⟨0, 1, 2, false⟩]⟩ ∧
    scoreNumberEventUSA [[["1", "", "3"]]] [[[1, 2, 3]]] 40 =
      ⟨0, 2, 0, [⟨0, 1, 0, false⟩]⟩ ∧
    (scoreNumberEvent [[["1", "", "3"]]] [[[1, 2, 3]]] 40).correctCount +
        (scoreNumberEvent [[["1", "", "3"]]] [[[1, 2, 3]]] 40).wrongCount <
      attemptedLength ["1", "", "3"] :=
  ⟨countCorrect_add_countWrong_le recalled actual, by decide, by decide, by decide⟩

/-- The Millennium score of 3200 raw digits against the 3234-digit standard:
3200 / 3234 × 1000 ≈ 989.49, which rounds to 989. -/
theorem millennium_3200_3234 : calculateMillenniumScore 3200 3234 = 989 := by
  unfold calculateMillenniumScore
  rw [round_eq, Int.floor_eq_iff]
  norm_num

/-- Claim C3 counterexample: the Millennium score of 3200 raw digits against the
3234 Hour Numbers standard is not 990. -/
theorem C3_counterexample : calculateMillenniumScore 3200 3234 ≠ 990 := by
  rw [millennium_3200_3234]
  norm_num

/-- Claim C3 as amended: `calculateMillenniumScore` is
`round(rawScore / standard * 1000)`, and at (3200, 3234) it returns 989. -/
theorem C3_millennium_formula :
    (∀ rawScore standard : ℚ,
      calculateMillenniumScore rawScore standard =
        round (rawScore / standard * 1000)) ∧
    calculateMillenniumScore 3200 3234 = 989 :=
  ⟨fun _ _ => rfl, millennium_3200_3234⟩

/-- Claim C7: the search radius is
`min(baseRange + floor(waitTime / timeInterval) * expansionRate, maxRange)`;
with the default config it is 100 at wait time 0, 150 after 25 seconds, and
never exceeds 500. -/
theorem C7_search_radius (config : MatchmakingConfig) (w : ℚ) :
    calculateSearchRange config w =
      min (config.baseRange +
          (⌊w / config.timeInterval⌋ : ℚ) * config.expansionRate)
        config.maxRange ∧
    calculateSearchRange DEFAULT_CONFIG 0 = 100 ∧
    calculateSearchRange DEFAULT_CONFIG 25 = 150 ∧
    calculateSearchRange DEFAULT_CONFIG w ≤ 500 := by
  refine ⟨rfl, ?_, ?_, min_le_right _ _⟩
  · show min ((100 : ℚ) + (⌊(0 : ℚ) / 5⌋ : ℚ) * 10) 500 = 100
    norm_num [min_def]
  · show min ((100 : ℚ) + (⌊(25 : ℚ) / 5⌋ : ℚ) * 10) 500 = 150
    norm_num [min_def]

/-- Claim C4: the logistic expected scores of the two players are exact
complements: `expectedScore(A, B) + expectedScore(B, A) = 1`. -/
theorem C4_expected_score_complement (ratingA ratingB : ℝ) :
    calculateExpectedScore ratingA ratingB +
      calculateExpectedScore ratingB ratingA = 1 := by
  unfold calculateExpectedScore
  have hx : (ratingA - ratingB) / 400 = -((ratingB - ratingA) / 400) := by ring
  rw [hx, Real.rpow_neg (by norm_num : (0 : ℝ) ≤ 10)]
  have hpos : (0 : ℝ) < (10 : ℝ) ^ ((ratingB - ratingA) / 400) :=
    Real.rpow_pos_of_pos (by norm_num) _
  have h1 : (1 : ℝ) + (10 : ℝ) ^ ((ratingB - ratingA) / 400) ≠ 0 := by positivity
  field_simp
  ring

/-- Claim C5: the new rating is `max(100, current + round(K × (actual − expected)))`
and in particular never drops below the hard floor of 100. -/
theorem C5_rating_floor (currentRating opponentRating actualScore kFactor : ℝ) :
    100 ≤ (calculateNewRating currentRating opponentRating actualScore
      kFactor).newRating ∧
    (calculateNewRating currentRating opponentRating actualScore
        kFactor).newRating =
      max 100 (currentRating + (round (kFactor * (actualScore -
        calculateExpectedScore currentRating opponentRating)) : ℝ)) :=
  ⟨le_max_left _ _, rfl⟩

/-- Claim C9: the field `ratingChange` is the unclamped rounded change; when
`current + ratingChange` falls below 100 the returned rating is exactly the
floor 100, so the returned change no longer equals `newRating − current`. -/
theorem C9_unclamped_change (c o s k : ℝ)
    (h : c + (calculateNewRating c o s k).ratingChange < 100) :
    (calculateNewRating c o s k).ratingChange =
      (round (k * (s - calculateExpectedScore c o)) : ℝ) ∧
    (calculateNewRating c o s k).newRating = 100 ∧
    (calculateNewRating c o s k).newRating - c ≠
      (calculateNewRating c o s k).ratingChange := by
  have hmax : (calculateNewRating c o s k).newRating =
      max 100 (c + (calculateNewRating c o s k).ratingChange) := rfl
  have h100 : (calculateNewRating c o s k).newRating = 100 := by
    rw [hmax]
    exact max_eq_left (le_of_lt h)
  refine ⟨rfl, h100, ?_⟩
  rw [h100]
  intro hEq
  linarith

/-- Witness for C9: two equally rated 100-point players, with K = 32 and a
loss, give rating change −16, so the floored new rating 100 differs from
`current + change = 84`. -/
theorem C9_unclamped_change_witness :
    (100 : ℝ) + (calculateNewRating 100 100 0 32).ratingChange < 100 ∧
    ((calculateNewRating 100 100 0 32).ratingChange =
        (round ((32 : ℝ) * ((0 : ℝ) - calculateExpectedScore 100 100)) : ℝ) ∧
      (calculateNewRating 100 100 0 32).newRating = 100 ∧
      (calculateNewRating 100 100 0 32).newRating - 100 ≠
        (calculateNewRating 100 100 0 32).ratingChange) := by
  have he : calculateExpectedScore 100 100 = 1 / 2 := by
    unfold calculateExpectedScore
    have h0 : ((100 : ℝ) - 100) / 400 = 0 := by norm_num
    rw [h0, Real.rpow_zero]
    norm_num
  have h16 : (32 : ℝ) * ((0 : ℝ) - 1 / 2) = ((-16 : ℤ) : ℝ) := by norm_num
  have hc : (calculateNewRating 100 100 0 32).ratingChange = -16 := by
    show ((round ((32 : ℝ) * ((0 : ℝ) - calculateExpectedScore 100 100)) : ℤ) : ℝ)
      = -16
    rw [he, h16, round_intCast]
    norm_num
  have h : (100 : ℝ) + (calculateNewRating 100 100 0 32).ratingChange < 100 := by
    rw [hc]
    norm_num
  exact ⟨h, C9_unclamped_change 100 100 0 32 h⟩
